import Mathlib

/-!
Shallow embedding of the FlowGen C++ sources (src/cpp/src/utils.cpp,
src/cpp/src/generator.cpp, src/cpp/src/flow_record.cpp,
src/cpp/tools/flowdump/timestamp_chunker.cpp,
src/cpp/tools/flowdump/flow_collector.cpp,
src/cpp/tools/flowstats/utils/enhanced_flow.cpp,
src/cpp/tools/flowstats/utils/port_stat.h) and proofs about it.

Modelling conventions:
- Machine integers are Nat (for unsigned) or Int (for signed) with explicit
  reductions modulo 2^32 or 2^64 exactly where the C++ relies on wrap-around.
- C++ strings are List Char.
- C++ doubles are modelled as exact rationals; every theorem that depends on a
  double computation only uses inputs for which the IEEE-754 computation of
  the source commits no rounding that changes the stated integer results.
- The Mersenne-twister random source is modelled as an oracle: a stream of raw
  natural numbers (for integer draws) and a stream of rationals in [0,1)
  (for real draws).  std::uniform_int_distribution(a, b) applied to the next
  raw draw x yields a + x % (b - a + 1), which has exactly the support [a, b];
  std::uniform_real_distribution(a, b) yields a + (b - a) * u for the next
  real draw u.  Claims about distributions are read as claims about supports.
- Fallible C++ code (functions that may throw) returns Except.
-/

deriving instance DecidableEq for Except

namespace FlowGen

/-- Two to the 32, the modulus of uint32_t arithmetic. -/
def U32 : Nat := 4294967296

/-- Two to the 64, the modulus of uint64_t arithmetic. -/
def U64 : Nat := 18446744073709551616

/-- Reduction of a signed value to uint32_t, as in static_cast of int to
uint32_t (C++ guarantees reduction modulo 2^32). -/
def toU32 (v : Int) : Nat := (v % (U32 : Int)).toNat

/-- Reinterpretation of a nat below 2^32 as int32_t (wrap-around semantics,
what GCC implements for out-of-range unsigned-to-signed casts). -/
def toI32 (n : Nat) : Int :=
  if n % U32 < 2147483648 then ((n % U32 : Nat) : Int) else ((n % U32 : Nat) : Int) - (U32 : Int)

/-- Decimal digit character, as emitted by the C++ stream insertion operator
for unsigned integers. -/
def digitChar (d : Nat) : Char := Char.ofNat (48 + d)

/-- Decimal representation of a natural number as produced by operator<< on
an unsigned integer: most significant digit first, and 0 prints as "0". -/
def natChars (n : Nat) : List Char :=
  if n = 0 then [digitChar 0] else (Nat.digits 10 n).reverse.map digitChar

/-- Digit classifier used by std::stoi (base 10). -/
def isDigitCh (c : Char) : Bool := 48 ≤ c.toNat && c.toNat ≤ 57

/-- Whitespace classifier used by std::stoi (std::isspace, default locale). -/
def isSpaceCh (c : Char) : Bool :=
  c.toNat = 32 || c.toNat = 9 || c.toNat = 10 || c.toNat = 11 || c.toNat = 12 || c.toNat = 13

/-- Numeric value of a digit string, most significant digit first. -/
def digitsVal (cs : List Char) : Nat :=
  cs.foldl (fun a c => a * 10 + (c.toNat - 48)) 0

/-- Errors of the embedded utility and engine functions.  They stand for the
C++ exceptions: std::invalid_argument and std::out_of_range from std::stoi,
and the std::runtime_error values thrown by the flowgen utilities. -/
inductive UtilErr where
  | invalidArg
  | outOfRange
  | invalidAddress
  | invalidPrefixLen
  | emptyItems
  | sizeMismatch
  | unknownPattern
  deriving DecidableEq, Inhabited

/-- Model of std::stoi in base 10: skip leading whitespace, read an optional
sign, then the longest run of digits; std::invalid_argument when that run is
empty, std::out_of_range when the value does not fit in int.  Characters
after the digit run are ignored. -/
def stoi (cs : List Char) : Except UtilErr Int :=
  let cs1 := cs.dropWhile isSpaceCh
  let sr : Int × List Char :=
    match cs1 with
    | [] => (1, [])
    | c :: rest => if c = '-' then (-1, rest) else if c = '+' then (1, rest) else (1, c :: rest)
  let ds := sr.2.takeWhile isDigitCh
  if ds.isEmpty then .error .invalidArg
  else
    let v : Int := sr.1 * (digitsVal ds : Int)
    if v < -2147483648 ∨ 2147483647 < v then .error .outOfRange else .ok v

/-- Field splitting performed by the while (std::getline(iss, token, delim))
loop in ip_str_to_uint32: the (possibly empty) fields separated by the
delimiter; a trailing delimiter does not produce a final empty field, because
the last getline call hits end-of-stream and fails. -/
def splitBy (delim : Char) : List Char → List (List Char)
  | [] => []
  | c :: cs =>
    if c = delim then [] :: splitBy delim cs
    else
      match splitBy delim cs with
      | [] => [[c]]
      | t :: ts => (c :: t) :: ts

/-- Model of std::string::find(c) plus the two substr calls around the first
occurrence: none when the character does not occur. -/
def breakAt (delim : Char) (s : List Char) : Option (List Char × List Char) :=
  match s.dropWhile (fun x => x != delim) with
  | [] => none
  | _ :: rest => some (s.takeWhile (fun x => x != delim), rest)

/-- Embedding of flowgen::utils::ip_str_to_uint32 (src/cpp/src/utils.cpp,
lines 41-59): split the string on dots with std::getline, convert every token
with std::stoi (exceptions propagate), require exactly four octets, then
combine with uint32_t shifts and bitwise or.  There is no range check on the
octet values beyond what std::stoi itself enforces. -/
def ip_str_to_uint32 (s : List Char) : Except UtilErr Nat := do
  let octets ← (splitBy '.' s).mapM stoi
  match octets with
  | [o0, o1, o2, o3] =>
    pure (((toU32 o0 <<< 24) % U32) ||| ((toU32 o1 <<< 16) % U32) |||
          ((toU32 o2 <<< 8) % U32) ||| toU32 o3)
  | _ => .error .invalidAddress

/-- Embedding of flowgen::utils::uint32_to_ip_str (src/cpp/src/utils.cpp,
lines 62-69). -/
def uint32_to_ip_str (ip : Nat) : List Char :=
  natChars ((ip >>> 24) &&& 255) ++ ('.' :: (natChars ((ip >>> 16) &&& 255) ++
  ('.' :: (natChars ((ip >>> 8) &&& 255) ++ ('.' :: natChars (ip &&& 255))))))

/-- Embedding of flowgen::utils::parse_subnet (src/cpp/src/utils.cpp, lines
72-96).  Note the uint32_t saturation: for prefix length 0 the host count is
0xFFFFFFFF, not 2^32 (which does not fit in the uint32_t return slot). -/
def parse_subnet (s : List Char) : Except UtilErr (Nat × Nat) :=
  match breakAt '/' s with
  | none => do
    let ip ← ip_str_to_uint32 s
    pure (ip, 1)
  | some (ipPart, rest) => do
    let p ← stoi rest
    if p < 0 ∨ 32 < p then .error .invalidPrefixLen
    else do
      let base ← ip_str_to_uint32 ipPart
      let hostBits : Nat := 32 - p.toNat
      let hostCount : Nat := if 32 ≤ hostBits then 4294967295 else (1 <<< hostBits) % U32
      let mask : Nat := if p = 0 then 0 else (4294967295 <<< hostBits) % U32
      pure (base &&& mask, hostCount)

/-! Arithmetic and string lemmas about the utility embedding. -/

theorem digitChar_toNat {d : Nat} (h : d < 10) : (digitChar d).toNat = 48 + d := by
  interval_cases d <;> decide

theorem isDigitCh_digitChar {d : Nat} (h : d < 10) : isDigitCh (digitChar d) = true := by
  interval_cases d <;> decide

theorem natChars_ne_nil (n : Nat) : natChars n ≠ [] := by
  unfold natChars
  split
  · simp
  · rename_i h
    simp only [ne_eq, List.map_eq_nil_iff, List.reverse_eq_nil_iff]
    exact Nat.digits_ne_nil_iff_ne_zero.mpr h

theorem natChars_digits {n : Nat} {c : Char} (hc : c ∈ natChars n) : isDigitCh c = true := by
  unfold natChars at hc
  split at hc
  · simp only [List.mem_singleton] at hc
    subst hc
    decide
  · simp only [List.mem_map, List.mem_reverse] at hc
    obtain ⟨d, hd, rfl⟩ := hc
    exact isDigitCh_digitChar (Nat.digits_lt_base (by norm_num) hd)

theorem foldr_digits_eq_ofDigits (L : List Nat) (h : ∀ d ∈ L, d < 10) :
    L.foldr (fun d a => a * 10 + ((digitChar d).toNat - 48)) 0 = Nat.ofDigits 10 L := by
  induction L with
  | nil => rfl
  | cons d L ih =>
    have hd : d < 10 := h d (List.mem_cons_self d L)
    have hL : ∀ x ∈ L, x < 10 := fun x hx => h x (List.mem_cons_of_mem d hx)
    simp only [List.foldr_cons, ih hL, Nat.ofDigits_cons, digitChar_toNat hd]
    omega

theorem digitsVal_natChars (n : Nat) : digitsVal (natChars n) = n := by
  unfold natChars digitsVal
  split
  · rename_i h
    subst h
    decide
  · rw [List.foldl_map, List.foldl_reverse]
    have := foldr_digits_eq_ofDigits (Nat.digits 10 n)
      (fun d hd => Nat.digits_lt_base (by norm_num) hd)
    rw [show (fun (x : Nat) (y : Nat) => y * 10 + ((digitChar x).toNat - 48)) =
        (fun d a => a * 10 + ((digitChar d).toNat - 48)) from rfl, this,
      Nat.ofDigits_digits]

theorem isDigitCh_not_space {c : Char} (h : isDigitCh c = true) : isSpaceCh c = false := by
  simp only [isDigitCh, Bool.and_eq_true, decide_eq_true_eq] at h
  simp only [isSpaceCh, Bool.or_eq_false_iff, decide_eq_false_iff_not]
  omega

theorem isDigitCh_ne_dot {c : Char} (h : isDigitCh c = true) : c ≠ '.' := by
  rintro rfl
  exact absurd h (by decide)

theorem isDigitCh_ne_slash {c : Char} (h : isDigitCh c = true) : c ≠ '/' := by
  rintro rfl
  exact absurd h (by decide)

theorem splitBy_cons (d c : Char) (cs : List Char) :
    splitBy d (c :: cs) =
      if c = d then [] :: splitBy d cs
      else
        match splitBy d cs with
        | [] => [[c]]
        | t :: ts => (c :: t) :: ts := rfl

theorem splitBy_single {d : Char} {t : List Char} (ht : t ≠ []) (hd : d ∉ t) :
    splitBy d t = [t] := by
  induction t with
  | nil => exact absurd rfl ht
  | cons c cs ih =>
    have hcd : ¬(c = d) := fun h => hd (h ▸ List.mem_cons_self c cs)
    rw [splitBy_cons, if_neg hcd]
    rcases cs with _ | ⟨c2, cs2⟩
    · rfl
    · rw [ih (by simp) (fun h => hd (List.mem_cons_of_mem c h))]

theorem splitBy_append {d : Char} {t rest : List Char} (hd : d ∉ t) :
    splitBy d (t ++ d :: rest) = t :: splitBy d rest := by
  induction t with
  | nil => simp [splitBy]
  | cons c cs ih =>
    have hcd : ¬(c = d) := fun h => hd (h ▸ List.mem_cons_self c cs)
    have hcs : d ∉ cs := fun h => hd (List.mem_cons_of_mem c h)
    rw [List.cons_append, splitBy_cons, if_neg hcd, ih hcs]

theorem stoi_digits {t : List Char} (ht : t ≠ []) (hd : ∀ c ∈ t, isDigitCh c = true)
    (hle : digitsVal t ≤ 2147483647) : stoi t = .ok (digitsVal t) := by
  obtain ⟨c, cs, rfl⟩ := List.exists_cons_of_ne_nil ht
  have hc : isDigitCh c = true := hd c (List.mem_cons_self c cs)
  have h1 : List.dropWhile isSpaceCh (c :: cs) = c :: cs := by
    rw [List.dropWhile_cons, isDigitCh_not_space hc]
    simp
  have hminus : ¬(c = '-') := by
    rintro rfl
    exact absurd hc (by decide)
  have hplus : ¬(c = '+') := by
    rintro rfl
    exact absurd hc (by decide)
  have h2 : List.takeWhile isDigitCh (c :: cs) = c :: cs :=
    List.takeWhile_eq_self_iff.mpr hd
  simp only [stoi, h1, if_neg hminus, if_neg hplus, h2, List.isEmpty_cons, Bool.false_eq_true,
    if_false, one_mul]
  rw [if_neg (by omega)]

theorem lor_mod_two_pow (x y n : Nat) : (x % 2 ^ n) ||| (y % 2 ^ n) = (x ||| y) % 2 ^ n := by
  apply Nat.eq_of_testBit_eq
  intro i
  simp only [Nat.testBit_lor, Nat.testBit_mod_two_pow]
  by_cases h : i < n <;> simp [h]

theorem toU32_ofNat {n : Nat} (h : n < U32) : toU32 ((n : Int)) = n := by
  unfold toU32 U32 at *
  rw [Int.emod_eq_of_lt (by positivity) (by exact_mod_cast h)]
  simp

theorem lor4_mod (A B C D : Nat) (hD : D < 2 ^ 32) :
    ((A <<< 24) % 2 ^ 32) ||| ((B <<< 16) % 2 ^ 32) ||| ((C <<< 8) % 2 ^ 32) ||| D =
      (A <<< 24 ||| B <<< 16 ||| C <<< 8 ||| D) % 2 ^ 32 := by
  conv_lhs => rw [← Nat.mod_eq_of_lt hD]
  rw [lor_mod_two_pow, lor_mod_two_pow, lor_mod_two_pow]

/-- Parsing four dot-separated digit tokens: the embedded ip_str_to_uint32
succeeds whenever each token value fits in int, and the result is the or of
the shifted octet values reduced modulo 2^32 (no per-octet range check). -/
theorem ip_str_to_uint32_tokens {t0 t1 t2 t3 : List Char}
    (h0 : t0 ≠ []) (h1 : t1 ≠ []) (h2 : t2 ≠ []) (h3 : t3 ≠ [])
    (hd0 : ∀ c ∈ t0, isDigitCh c = true) (hd1 : ∀ c ∈ t1, isDigitCh c = true)
    (hd2 : ∀ c ∈ t2, isDigitCh c = true) (hd3 : ∀ c ∈ t3, isDigitCh c = true)
    (hv0 : digitsVal t0 ≤ 2147483647) (hv1 : digitsVal t1 ≤ 2147483647)
    (hv2 : digitsVal t2 ≤ 2147483647) (hv3 : digitsVal t3 ≤ 2147483647) :
    ip_str_to_uint32 (t0 ++ ('.' :: (t1 ++ ('.' :: (t2 ++ ('.' :: t3)))))) =
      .ok ((digitsVal t0 <<< 24 ||| digitsVal t1 <<< 16 |||
            digitsVal t2 <<< 8 ||| digitsVal t3) % U32) := by
  have hdot0 : '.' ∉ t0 := fun h => isDigitCh_ne_dot (hd0 _ h) rfl
  have hdot1 : '.' ∉ t1 := fun h => isDigitCh_ne_dot (hd1 _ h) rfl
  have hdot2 : '.' ∉ t2 := fun h => isDigitCh_ne_dot (hd2 _ h) rfl
  have hdot3 : '.' ∉ t3 := fun h => isDigitCh_ne_dot (hd3 _ h) rfl
  have hsplit : splitBy '.' (t0 ++ ('.' :: (t1 ++ ('.' :: (t2 ++ ('.' :: t3)))))) =
      [t0, t1, t2, t3] := by
    rw [splitBy_append hdot0, splitBy_append hdot1, splitBy_append hdot2,
      splitBy_single h3 hdot3]
  have hlt : ∀ t : List Char, digitsVal t ≤ 2147483647 → digitsVal t < U32 := by
    intro t h
    unfold U32
    omega
  unfold ip_str_to_uint32
  rw [hsplit]
  simp only [List.mapM_cons, List.mapM_nil, stoi_digits h0 hd0 hv0, stoi_digits h1 hd1 hv1,
    stoi_digits h2 hd2 hv2, stoi_digits h3 hd3 hv3, bind, Except.bind, pure, Except.pure,
    Except.map]
  rw [toU32_ofNat (hlt _ hv0), toU32_ofNat (hlt _ hv1), toU32_ofNat (hlt _ hv2),
    toU32_ofNat (hlt _ hv3)]
  have hU : U32 = 2 ^ 32 := by decide
  rw [hU, lor4_mod _ _ _ _ (hU ▸ hlt _ hv3)]

theorem shiftLeft_or_eq_add {k b : Nat} (hb : b < 2 ^ k) (a : Nat) :
    a <<< k ||| b = a * 2 ^ k + b := by
  rw [Nat.shiftLeft_eq, mul_comm a]
  exact (Nat.mul_add_lt_is_or hb a).symm

theorem bytes_recompose (u : Nat) (hu : u < 4294967296) :
    ((u >>> 24) &&& 255) <<< 24 ||| ((u >>> 16) &&& 255) <<< 16 |||
      ((u >>> 8) &&& 255) <<< 8 ||| (u &&& 255) = u := by
  have e8 : (2 : Nat) ^ 8 = 256 := by norm_num
  have e16 : (2 : Nat) ^ 16 = 65536 := by norm_num
  have e24 : (2 : Nat) ^ 24 = 16777216 := by norm_num
  have h255 : ∀ x : Nat, x &&& 255 = x % 256 := fun x => by
    rw [show (255 : Nat) = 2 ^ 8 - 1 by norm_num, Nat.and_pow_two_sub_one_eq_mod, e8]
  have hm : ∀ x : Nat, x % 256 < 2 ^ 8 := fun x => by
    rw [e8]
    omega
  have hm16 : ∀ x y : Nat, x % 256 * 2 ^ 8 + y % 256 < 2 ^ 16 := fun x y => by
    rw [e8, e16]
    omega
  have hm24 : ∀ x y z : Nat, x % 256 * 2 ^ 16 + (y % 256 * 2 ^ 8 + z % 256) < 2 ^ 24 :=
    fun x y z => by
      rw [e8, e16, e24]
      omega
  rw [h255, h255, h255, h255, Nat.or_assoc, Nat.or_assoc,
    shiftLeft_or_eq_add (hm u), shiftLeft_or_eq_add (hm16 _ _),
    shiftLeft_or_eq_add (hm24 _ _ _), Nat.shiftRight_eq_div_pow, Nat.shiftRight_eq_div_pow,
    Nat.shiftRight_eq_div_pow, e8, e16, e24]
  omega

/-- C8: the dotted-quad format and parse functions are mutually inverse on
every 32-bit value: parsing the string produced by uint32_to_ip_str recovers
the value exactly. -/
theorem C8_format_parse_roundtrip (u : Nat) (hu : u < 4294967296) :
    ip_str_to_uint32 (uint32_to_ip_str u) = Except.ok u := by
  have hdig : ∀ x : Nat, ∀ c ∈ natChars x, isDigitCh c = true := fun x c hc => natChars_digits hc
  have hval : ∀ x : Nat, digitsVal (natChars (x &&& 255)) ≤ 2147483647 := fun x => by
    rw [digitsVal_natChars]
    exact le_trans Nat.and_le_right (by norm_num)
  unfold uint32_to_ip_str
  rw [ip_str_to_uint32_tokens (natChars_ne_nil _) (natChars_ne_nil _) (natChars_ne_nil _)
    (natChars_ne_nil _) (hdig _) (hdig _) (hdig _) (hdig _) (hval _) (hval _) (hval _) (hval _)]
  rw [digitsVal_natChars, digitsVal_natChars, digitsVal_natChars, digitsVal_natChars,
    bytes_recompose u hu, show U32 = 4294967296 from rfl, Nat.mod_eq_of_lt hu]

/-- Witness for C8 at the concrete value 3232235777 (that is 192.168.1.1). -/
theorem C8_format_parse_roundtrip_witness :
    3232235777 < 4294967296 ∧
      ip_str_to_uint32 (uint32_to_ip_str 3232235777) = Except.ok 3232235777 :=
  ⟨by decide, C8_format_parse_roundtrip 3232235777 (by decide)⟩

/-- C10 (amended): parsing four dot-separated digit tokens performs no octet
range check: whenever each token value fits in int, the parse succeeds with
the or of the shifted octet values reduced modulo 2^32, so octet values above
255 spill into more significant positions.  (The amendment: a token whose
value exceeds INT_MAX makes std::stoi throw std::out_of_range, so the claim
holds for token values up to 2147483647, not for all numeric tokens.) -/
theorem C10_no_octet_range_check {t0 t1 t2 t3 : List Char}
    (h0 : t0 ≠ []) (h1 : t1 ≠ []) (h2 : t2 ≠ []) (h3 : t3 ≠ [])
    (hd0 : ∀ c ∈ t0, isDigitCh c = true) (hd1 : ∀ c ∈ t1, isDigitCh c = true)
    (hd2 : ∀ c ∈ t2, isDigitCh c = true) (hd3 : ∀ c ∈ t3, isDigitCh c = true)
    (hv0 : digitsVal t0 ≤ 2147483647) (hv1 : digitsVal t1 ≤ 2147483647)
    (hv2 : digitsVal t2 ≤ 2147483647) (hv3 : digitsVal t3 ≤ 2147483647) :
    ip_str_to_uint32 (t0 ++ ('.' :: (t1 ++ ('.' :: (t2 ++ ('.' :: t3)))))) =
      .ok ((digitsVal t0 <<< 24 ||| digitsVal t1 <<< 16 |||
            digitsVal t2 <<< 8 ||| digitsVal t3) % U32) :=
  ip_str_to_uint32_tokens h0 h1 h2 h3 hd0 hd1 hd2 hd3 hv0 hv1 hv2 hv3

/-- Witness for C10 at the four digit tokens 256, 0, 0, 1: the oversized
first octet spills so that the parse yields 1. -/
theorem C10_no_octet_range_check_witness :
    ip_str_to_uint32 (['2', '5', '6'] ++ ('.' :: (['0'] ++ ('.' :: (['0'] ++ ('.' :: ['1'])))))) =
      .ok ((digitsVal ['2', '5', '6'] <<< 24 ||| digitsVal ['0'] <<< 16 |||
            digitsVal ['0'] <<< 8 ||| digitsVal ['1']) % U32) ∧
    (digitsVal ['2', '5', '6'] <<< 24 ||| digitsVal ['0'] <<< 16 |||
      digitsVal ['0'] <<< 8 ||| digitsVal ['1']) % U32 = 1 :=
  ⟨C10_no_octet_range_check (by decide) (by decide) (by decide) (by decide)
    (by decide) (by decide) (by decide) (by decide)
    (by decide) (by decide) (by decide) (by decide), by decide⟩

/-- C10 counterexample: the input 2147483648.0.0.0 consists of exactly four
dot-separated numeric tokens, yet ip_str_to_uint32 does not succeed on it:
std::stoi throws std::out_of_range on the first token. -/
theorem C10_counterexample :
    ((splitBy '.' ("2147483648.0.0.0".toList)).length = 4 ∧
      ∀ t ∈ splitBy '.' ("2147483648.0.0.0".toList), t ≠ [] ∧ ∀ c ∈ t, isDigitCh c = true) ∧
    ip_str_to_uint32 ("2147483648.0.0.0".toList) = .error .outOfRange := by
  decide

/-! Lemmas for parse_subnet and the C5 claim. -/

theorem takeWhile_ne_append {d : Char} {t rest : List Char} (h : d ∉ t) :
    List.takeWhile (fun x => x != d) (t ++ d :: rest) = t := by
  induction t with
  | nil => simp [List.takeWhile_cons]
  | cons c cs ih =>
    have hcd : (c != d) = true := bne_iff_ne.mpr fun he => h (he ▸ List.mem_cons_self c cs)
    rw [List.cons_append, List.takeWhile_cons, hcd, ih (fun hm => h (List.mem_cons_of_mem c hm))]
    simp

theorem dropWhile_ne_append {d : Char} {t rest : List Char} (h : d ∉ t) :
    List.dropWhile (fun x => x != d) (t ++ d :: rest) = d :: rest := by
  induction t with
  | nil => simp [List.dropWhile_cons]
  | cons c cs ih =>
    have hcd : (c != d) = true := bne_iff_ne.mpr fun he => h (he ▸ List.mem_cons_self c cs)
    rw [List.cons_append, List.dropWhile_cons, hcd, ih (fun hm => h (List.mem_cons_of_mem c hm))]
    simp

theorem dropWhile_ne_nil {d : Char} {t : List Char} (h : d ∉ t) :
    List.dropWhile (fun x => x != d) t = [] := by
  induction t with
  | nil => rfl
  | cons c cs ih =>
    have hcd : (c != d) = true := bne_iff_ne.mpr fun he => h (he ▸ List.mem_cons_self c cs)
    rw [List.dropWhile_cons, hcd, ih (fun hm => h (List.mem_cons_of_mem c hm))]
    simp

theorem breakAt_none {d : Char} {s : List Char} (h : d ∉ s) : breakAt d s = none := by
  unfold breakAt
  rw [dropWhile_ne_nil h]

theorem breakAt_append {d : Char} {t rest : List Char} (h : d ∉ t) :
    breakAt d (t ++ d :: rest) = some (t, rest) := by
  unfold breakAt
  rw [dropWhile_ne_append h, takeWhile_ne_append h]

/-- Character list of the dotted quad a.b.c.d as printed from four octet
values. -/
def ipTokens (a b c d : Nat) : List Char :=
  natChars a ++ ('.' :: (natChars b ++ ('.' :: (natChars c ++ ('.' :: natChars d)))))

theorem slash_not_in_natChars {x : Nat} : '/' ∉ natChars x :=
  fun h => isDigitCh_ne_slash (natChars_digits h) rfl

theorem slash_not_in_ipTokens {a b c d : Nat} : '/' ∉ ipTokens a b c d := by
  intro hmem
  simp only [ipTokens, List.mem_append, List.mem_cons] at hmem
  rcases hmem with h | h | h | h | h | h | h
  · exact slash_not_in_natChars h
  · exact absurd h (by decide)
  · exact slash_not_in_natChars h
  · exact absurd h (by decide)
  · exact slash_not_in_natChars h
  · exact absurd h (by decide)
  · exact slash_not_in_natChars h

theorem comb_lt {a b c d : Nat} (ha : a ≤ 255) (hb : b ≤ 255) (hc : c ≤ 255) (hd : d ≤ 255) :
    a <<< 24 ||| b <<< 16 ||| c <<< 8 ||| d < U32 := by
  rw [show U32 = 2 ^ 32 from by decide]
  apply Nat.or_lt_two_pow
  apply Nat.or_lt_two_pow
  apply Nat.or_lt_two_pow
  · rw [Nat.shiftLeft_eq]
    norm_num
    omega
  · rw [Nat.shiftLeft_eq]
    norm_num
    omega
  · rw [Nat.shiftLeft_eq]
    norm_num
    omega
  · norm_num
    omega

theorem ipTokens_parse {a b c d : Nat} (ha : a ≤ 255) (hb : b ≤ 255) (hc : c ≤ 255)
    (hd : d ≤ 255) :
    ip_str_to_uint32 (ipTokens a b c d) = .ok (a <<< 24 ||| b <<< 16 ||| c <<< 8 ||| d) := by
  have hdig : ∀ x : Nat, ∀ ch ∈ natChars x, isDigitCh ch = true := fun x ch hch =>
    natChars_digits hch
  have hval : ∀ x : Nat, x ≤ 255 → digitsVal (natChars x) ≤ 2147483647 := fun x hx => by
    rw [digitsVal_natChars]
    omega
  unfold ipTokens
  rw [ip_str_to_uint32_tokens (natChars_ne_nil _) (natChars_ne_nil _) (natChars_ne_nil _)
    (natChars_ne_nil _) (hdig _) (hdig _) (hdig _) (hdig _) (hval _ ha) (hval _ hb)
    (hval _ hc) (hval _ hd)]
  rw [digitsVal_natChars, digitsVal_natChars, digitsVal_natChars, digitsVal_natChars,
    Nat.mod_eq_of_lt (comb_lt ha hb hc hd)]

theorem mask_shift_mod {k : Nat} (hk : k ≤ 31) :
    (4294967295 <<< k) % U32 = U32 - 2 ^ k := by
  obtain ⟨K, hK⟩ : ∃ K, 2 ^ k = K := ⟨_, rfl⟩
  have h1 : 1 ≤ K := hK ▸ Nat.one_le_two_pow
  have h2 : K ≤ 2147483648 := by
    rw [← hK]
    calc 2 ^ k ≤ 2 ^ 31 := Nat.pow_le_pow_right (by norm_num) hk
    _ = 2147483648 := by norm_num
  rw [Nat.shiftLeft_eq, hK, show U32 = 4294967296 from rfl]
  omega

/-- C5 (amended): parse_subnet on a.b.c.d/p returns the base address masked
with the top p bits together with a host count of 2^(32-p) for 1 ≤ p ≤ 32,
but for p = 0 the uint32_t host count saturates to 2^32 - 1 (0xFFFFFFFF), not
2^32; a bare address with no /p returns (addr, 1). -/
theorem C5_parse_subnet (a b c d p : Nat) (ha : a ≤ 255) (hb : b ≤ 255) (hc : c ≤ 255)
    (hd : d ≤ 255) (hp : p ≤ 32) :
    parse_subnet (ipTokens a b c d ++ ('/' :: natChars p)) =
      .ok ((a <<< 24 ||| b <<< 16 ||| c <<< 8 ||| d) &&& (U32 - 2 ^ (32 - p)),
        if p = 0 then U32 - 1 else 2 ^ (32 - p)) ∧
    parse_subnet (ipTokens a b c d) =
      .ok (a <<< 24 ||| b <<< 16 ||| c <<< 8 ||| d, 1) := by
  constructor
  · have hstoi : stoi (natChars p) = .ok ((p : Int)) := by
      rw [stoi_digits (natChars_ne_nil p) (fun ch hch => natChars_digits hch)
        (by rw [digitsVal_natChars]; omega), digitsVal_natChars]
    simp only [parse_subnet, breakAt_append slash_not_in_ipTokens, hstoi, bind, Except.bind]
    rw [if_neg (by omega)]
    simp only [ipTokens_parse ha hb hc hd, bind, Except.bind, Int.toNat_natCast, pure,
      Except.pure]
    rcases Nat.eq_zero_or_pos p with hp0 | hp1
    · subst hp0
      norm_num [U32]
    · have hbits : 32 - p ≤ 31 := by
        omega
      rw [if_neg (by omega), if_neg (by omega), Nat.one_shiftLeft, mask_shift_mod hbits,
        Nat.mod_eq_of_lt
          (lt_of_le_of_lt (Nat.pow_le_pow_right (by norm_num) hbits)
            (by norm_num [U32])),
        if_neg (by omega)]
  · simp only [parse_subnet, breakAt_none slash_not_in_ipTokens,
      ipTokens_parse ha hb hc hd, bind, Except.bind, pure, Except.pure]

/-- Witness for C5 at 192.168.1.0/24 (and the bare address 192.168.1.7 via a
second instantiation inside the conjunction). -/
theorem C5_parse_subnet_witness :
    (192 ≤ 255 ∧ 24 ≤ 32) ∧
      parse_subnet (ipTokens 192 168 1 0 ++ ('/' :: natChars 24)) =
        .ok ((192 <<< 24 ||| 168 <<< 16 ||| 1 <<< 8 ||| 0) &&& (U32 - 2 ^ (32 - 24)),
          if (24 : Nat) = 0 then U32 - 1 else 2 ^ (32 - 24)) ∧
      parse_subnet (ipTokens 192 168 1 0) =
        .ok (192 <<< 24 ||| 168 <<< 16 ||| 1 <<< 8 ||| 0, 1) :=
  ⟨⟨by decide, by decide⟩,
    (C5_parse_subnet 192 168 1 0 24 (by decide) (by decide) (by decide) (by decide)
      (by decide)).1,
    (C5_parse_subnet 192 168 1 0 24 (by decide) (by decide) (by decide) (by decide)
      (by decide)).2⟩

/-- C5 counterexample: for prefix length 0 the code returns host count
0xFFFFFFFF = 2^32 - 1, not 2^(32-0) = 2^32 as the claim states. -/
theorem C5_counterexample :
    parse_subnet ("0.0.0.0/0".toList) = .ok (0, 4294967295) ∧ (4294967295 : Nat) ≠ 2 ^ 32 := by
  decide

/-! The random source, modelled as an oracle (see the header comment). -/

structure Rng where
  ints : Nat → Nat
  reals : Nat → ℚ
  ipos : Nat
  rpos : Nat

/-- Model of Random::randint(min, max), that is
std::uniform_int_distribution<int>(min, max) applied to the Mersenne twister:
the next raw draw x yields min + x % (max - min + 1), whose range over all
draws is exactly [min, max].  For min > max the C++ behaviour is undefined;
the model returns min there (no verified code path reaches that case). -/
def randint (r : Rng) (a b : Int) : Int × Rng :=
  (if a ≤ b then a + ((r.ints r.ipos : Int) % (b - a + 1)) else a,
   { r with ipos := r.ipos + 1 })

/-- Model of Random::uniform(min, max), that is
std::uniform_real_distribution<double>(min, max): min + (max - min) * u for
the next real draw u in [0, 1). -/
def uniform (r : Rng) (a b : ℚ) : ℚ × Rng :=
  (a + (b - a) * r.reals r.rpos, { r with rpos := r.rpos + 1 })

theorem randint_bounds {a b : Int} (h : a ≤ b) (r : Rng) :
    a ≤ (randint r a b).1 ∧ (randint r a b).1 ≤ b := by
  unfold randint
  simp only [if_pos h]
  have hpos : (0 : Int) < b - a + 1 := by omega
  have h1 : 0 ≤ (r.ints r.ipos : Int) % (b - a + 1) := Int.emod_nonneg _ (by omega)
  have h2 : (r.ints r.ipos : Int) % (b - a + 1) < b - a + 1 := Int.emod_lt_of_pos _ hpos
  omega

theorem randint_eq {a b v : Int} (r : Rng) (hab : a ≤ b) (hv : a ≤ v) (hv2 : v ≤ b)
    (hr : (r.ints r.ipos : Int) = v - a) : (randint r a b).1 = v := by
  unfold randint
  simp only [if_pos hab, hr]
  rw [Int.emod_eq_of_lt (by omega) (by omega)]
  omega

/-- Cumulative-sum scan of the weighted_choice loop: the first item whose
cumulative weight reaches the draw, or the fallback items.back() when the
loop runs out. -/
def wcLoop {α : Type} (fb : α) (rv : ℚ) : List α → List ℚ → ℚ → α
  | [], _, _ => fb
  | _ :: _, [], _ => fb
  | x :: xs, w :: ws, cum => if rv ≤ cum + w then x else wcLoop fb rv xs ws (cum + w)

/-- Embedding of flowgen::utils::weighted_choice
(src/cpp/tools/flowstats/utils/port_stat.h, lines 475-507): empty items and
length mismatch throw; empty weights pick a uniform index; otherwise the draw
is uniform in [0, total) and the cumulative scan picks the item. -/
def weighted_choice {α : Type} (items : List α) (weights : List ℚ) (r : Rng) :
    Except UtilErr (α × Rng) :=
  match items with
  | [] => .error .emptyItems
  | x :: xs =>
    if weights ≠ [] ∧ weights.length ≠ (x :: xs).length then .error .sizeMismatch
    else if weights = [] then
      let ir := randint r 0 (((x :: xs).length : Int) - 1)
      .ok ((x :: xs).getD ir.1.toNat x, ir.2)
    else
      let total := weights.foldl (fun acc w => acc + w) 0
      let ur := uniform r 0 total
      .ok (wcLoop ((x :: xs).getLast (List.cons_ne_nil x xs)) ur.1 (x :: xs) weights 0, ur.2)

theorem weighted_choice_nil {α : Type} (weights : List ℚ) (r : Rng) :
    weighted_choice ([] : List α) weights r = .error .emptyItems := rfl

theorem weighted_choice_cons {α : Type} (x : α) (xs : List α) (weights : List ℚ) (r : Rng) :
    weighted_choice (x :: xs) weights r =
      if weights ≠ [] ∧ weights.length ≠ (x :: xs).length then .error .sizeMismatch
      else if weights = [] then
        let ir := randint r 0 (((x :: xs).length : Int) - 1)
        .ok ((x :: xs).getD ir.1.toNat x, ir.2)
      else
        let total := weights.foldl (fun acc w => acc + w) 0
        let ur := uniform r 0 total
        .ok (wcLoop ((x :: xs).getLast (List.cons_ne_nil x xs)) ur.1 (x :: xs) weights 0,
          ur.2) := rfl

/-- C9: weighted_choice fails with the empty-items precondition error on
empty items; fails with the size-mismatch precondition error when weights is
non-empty and of different length than items; and with empty weights it
returns a uniformly chosen element of items: the result is always an element
of items, picked by index from a uniform integer draw over [0, length - 1],
and every index is attainable by some draw. -/
theorem C9_weighted_choice {α : Type} (items : List α) (weights : List ℚ) (r : Rng) :
    (items = [] → weighted_choice items weights r = .error .emptyItems) ∧
    (items ≠ [] → weights ≠ [] → weights.length ≠ items.length →
      weighted_choice items weights r = .error .sizeMismatch) ∧
    (items ≠ [] → weights = [] →
      (∃ i : Fin items.length, ∃ r2, weighted_choice items weights r = .ok (items.get i, r2)) ∧
      ∀ i : Fin items.length, ∃ r0 r2,
        weighted_choice items weights r0 = .ok (items.get i, r2)) := by
  refine ⟨fun he => ?_, fun hne hw hlen => ?_, fun hne hw => ?_⟩
  · subst he
    rfl
  · obtain ⟨x, xs, rfl⟩ := List.exists_cons_of_ne_nil hne
    rw [weighted_choice_cons, if_pos ⟨hw, hlen⟩]
  · obtain ⟨x, xs, rfl⟩ := List.exists_cons_of_ne_nil hne
    subst hw
    have hred : ∀ r0 : Rng, weighted_choice (x :: xs) [] r0 =
        .ok ((x :: xs).getD (randint r0 0 (((x :: xs).length : Int) - 1)).1.toNat x,
          (randint r0 0 (((x :: xs).length : Int) - 1)).2) := by
      intro r0
      rw [weighted_choice_cons, if_neg (by simp), if_pos rfl]
    have hlenpos : (0 : Int) ≤ ((x :: xs).length : Int) - 1 := by
      simp only [List.length_cons]
      push_cast
      omega
    constructor
    · obtain ⟨hlo, hhi⟩ := randint_bounds hlenpos r
      have hidx : (randint r 0 (((x :: xs).length : Int) - 1)).1.toNat < (x :: xs).length := by
        omega
      refine ⟨⟨_, hidx⟩, (randint r 0 (((x :: xs).length : Int) - 1)).2, ?_⟩
      rw [hred r]
      simp only [List.getD_eq_getElem?_getD, List.getElem?_eq_getElem hidx, Option.getD_some,
        List.get_eq_getElem]
    · intro i
      refine ⟨⟨fun _ => i.val, fun _ => 0, 0, 0⟩,
        (randint ⟨fun _ => i.val, fun _ => 0, 0, 0⟩ 0 (((x :: xs).length : Int) - 1)).2, ?_⟩
      rw [hred]
      have hv : (randint ⟨fun _ => i.val, fun _ => 0, 0, 0⟩ 0
          (((x :: xs).length : Int) - 1)).1 = (i.val : Int) := by
        apply randint_eq _ hlenpos (by omega) (by have := i.isLt; omega)
        simp
      rw [hv]
      have hti : ((i.val : Int)).toNat = i.val := by omega
      rw [hti]
      simp only [List.getD_eq_getElem?_getD, List.getElem?_eq_getElem i.isLt, Option.getD_some,
        List.get_eq_getElem]

/-- Witness for C9: the three branches at concrete inputs. -/
theorem C9_weighted_choice_witness :
    (weighted_choice ([] : List Nat) [] ⟨fun _ => 0, fun _ => 0, 0, 0⟩ =
      .error .emptyItems) ∧
    (weighted_choice [7, 9] [(1 : ℚ)] ⟨fun _ => 0, fun _ => 0, 0, 0⟩ =
      .error .sizeMismatch) ∧
    (∃ i : Fin 3, ∃ r2, weighted_choice [10, 20, 30] ([] : List ℚ)
      ⟨fun _ => 2, fun _ => 0, 0, 0⟩ = .ok ([10, 20, 30].get i, r2)) :=
  ⟨(C9_weighted_choice ([] : List Nat) [] ⟨fun _ => 0, fun _ => 0, 0, 0⟩).1 rfl,
   (C9_weighted_choice [7, 9] [(1 : ℚ)] ⟨fun _ => 0, fun _ => 0, 0, 0⟩).2.1
     (by simp) (by simp) (by simp),
   ((C9_weighted_choice [10, 20, 30] ([] : List ℚ) ⟨fun _ => 2, fun _ => 0, 0, 0⟩).2.2
     (by simp) rfl).1⟩

/-! Flow-statistics synthesis: the two generate_flow_stats implementations. -/

structure FlowStats where
  packet_count : Nat
  byte_count : Nat
  duration_ns : Nat
  deriving DecidableEq, Inhabited

/-- The int32_t value of -variance where variance is uint32_t: unary minus on
the unsigned operand wraps to 2^32 - variance, then the cast reinterprets. -/
def negU32toI32 (v : Nat) : Int := toI32 ((U32 - v % U32) % U32)

/-- Byte-accumulation loop of the flowstats generate_flow_stats
(src/cpp/tools/flowstats/utils/enhanced_flow.cpp, lines 159-168): variance is
the uint32_t avg/5; the offset draw is over the int32_t casts of -variance
and variance; avg + offset is uint32_t arithmetic; the packet size is clamped
to [64, 1500] with unsigned max/min before being added (byte_count is
uint64_t; the sum of at most 500 values up to 1500 never wraps). -/
def fsByteLoop (avg : Nat) : Nat → Nat → Rng → Nat × Rng
  | 0, acc, r => (acc, r)
  | n + 1, acc, r =>
    let variance := avg / 5
    let or1 := randint r (negU32toI32 variance) (toI32 variance)
    let pkt := ((((avg : Int) + or1.1) % (U32 : Int)).toNat)
    let clamped := max 64 (min 1500 pkt)
    fsByteLoop avg n (acc + clamped) or1.2

/-- Byte-accumulation loop of the flowdump generate_flow_stats
(src/cpp/tools/flowdump/flow_collector.cpp, lines 271-280): here variance,
offset and packet size are int32_t arithmetic (the cast of avg, division
truncating toward zero), clamped with signed max/min.  Signed overflow of
avg + offset would be undefined behaviour in C++; the model computes in
unbounded integers, which agrees with the hardware for all avg below
2^31 * 5 / 6. -/
def fdByteLoop (avg : Nat) : Nat → Nat → Rng → Nat × Rng
  | 0, acc, r => (acc, r)
  | n + 1, acc, r =>
    let variance := Int.tdiv (toI32 avg) 5
    let or1 := randint r (-variance) variance
    let pkt : Int := toI32 avg + or1.1
    let clamped := max 64 (min 1500 pkt)
    fdByteLoop avg n (acc + clamped.toNat) or1.2

/-- Packet-count draw shared verbatim by both generate_flow_stats versions
(enhanced_flow.cpp lines 136-157, flow_collector.cpp lines 241-269). -/
def statsPacketCount (proto dport : Nat) (r : Rng) : Int × Rng :=
  if proto = 6 then
    if dport = 80 ∨ dport = 443 then randint r 10 50
    else if dport = 22 then randint r 100 500
    else if dport = 3306 ∨ dport = 5432 ∨ dport = 27017 ∨ dport = 6379 then randint r 5 100
    else if dport = 25 ∨ dport = 587 ∨ dport = 465 then randint r 10 50
    else randint r 5 100
  else if proto = 17 then
    if dport = 53 then (2, r) else randint r 1 20
  else randint r 1 10

/-- Duration computation of the flowstats generate_flow_stats
(enhanced_flow.cpp lines 170-198).  All inter-packet times are drawn in
microseconds and scaled by 1000; the uint64_t products never wrap (packet
count at most 500, gap at most 100000). -/
def fsDuration (proto dport pc : Nat) (r : Rng) : Nat × Rng :=
  if pc = 1 then (0, r)
  else if proto = 6 then
    if dport = 80 ∨ dport = 443 then
      let g := randint r 10000 100000
      ((pc - 1) * g.1.toNat * 1000, g.2)
    else if dport = 22 then
      let g := randint r 1000 50000
      ((pc - 1) * g.1.toNat * 1000, g.2)
    else if dport = 3306 ∨ dport = 5432 ∨ dport = 27017 ∨ dport = 6379 then
      let g := randint r 1000 20000
      ((pc - 1) * g.1.toNat * 1000, g.2)
    else
      let g := randint r 5000 50000
      ((pc - 1) * g.1.toNat * 1000, g.2)
  else if proto = 17 then
    if dport = 53 then
      let g := randint r 1000000 50000000
      (g.1.toNat, g.2)
    else
      let g := randint r 100 10000
      ((pc - 1) * g.1.toNat * 1000, g.2)
  else
    let g := randint r 1000 10000
    ((pc - 1) * g.1.toNat * 1000, g.2)

/-- Duration computation of the flowdump generate_flow_stats
(flow_collector.cpp lines 282-319).  Identical to the flowstats one except
for the final branch: other protocols draw the gap from [1000, 20000]
microseconds there, not [1000, 10000]. -/
def fdDuration (proto dport pc : Nat) (r : Rng) : Nat × Rng :=
  if pc = 1 then (0, r)
  else if proto = 6 then
    if dport = 80 ∨ dport = 443 then
      let g := randint r 10000 100000
      ((pc - 1) * g.1.toNat * 1000, g.2)
    else if dport = 22 then
      let g := randint r 1000 50000
      ((pc - 1) * g.1.toNat * 1000, g.2)
    else if dport = 3306 ∨ dport = 5432 ∨ dport = 27017 ∨ dport = 6379 then
      let g := randint r 1000 20000
      ((pc - 1) * g.1.toNat * 1000, g.2)
    else
      let g := randint r 5000 50000
      ((pc - 1) * g.1.toNat * 1000, g.2)
  else if proto = 17 then
    if dport = 53 then
      let g := randint r 1000000 50000000
      (g.1.toNat, g.2)
    else
      let g := randint r 100 10000
      ((pc - 1) * g.1.toNat * 1000, g.2)
  else
    let g := randint r 1000 20000
    ((pc - 1) * g.1.toNat * 1000, g.2)

/-- Embedding of flowstats::generate_flow_stats (enhanced_flow.cpp, lines
129-201). -/
def fs_generate_flow_stats (avg proto dport : Nat) (r : Rng) : FlowStats × Rng :=
  let pcr := statsPacketCount proto dport r
  let pc := pcr.1.toNat
  let br := fsByteLoop avg pc 0 pcr.2
  let dr := fsDuration proto dport pc br.2
  ({ packet_count := pc, byte_count := br.1, duration_ns := dr.1 }, dr.2)

/-- Embedding of flowdump::generate_flow_stats (flow_collector.cpp, lines
234-322). -/
def fd_generate_flow_stats (avg proto dport : Nat) (r : Rng) : FlowStats × Rng :=
  let pcr := statsPacketCount proto dport r
  let pc := pcr.1.toNat
  let br := fdByteLoop avg pc 0 pcr.2
  let dr := fdDuration proto dport pc br.2
  ({ packet_count := pc, byte_count := br.1, duration_ns := dr.1 }, dr.2)

theorem fsByteLoop_bounds (avg : Nat) : ∀ (n acc : Nat) (r : Rng),
    acc + 64 * n ≤ (fsByteLoop avg n acc r).1 ∧
      (fsByteLoop avg n acc r).1 ≤ acc + 1500 * n := by
  intro n
  induction n with
  | zero => intro acc r; simp [fsByteLoop]
  | succ m ih =>
    intro acc r
    rw [fsByteLoop]
    obtain ⟨h1, h2⟩ := ih (acc + max 64 (min 1500
      ((((avg : Int) + (randint r (negU32toI32 (avg / 5)) (toI32 (avg / 5))).1) %
        (U32 : Int)).toNat)))
      ((randint r (negU32toI32 (avg / 5)) (toI32 (avg / 5))).2)
    omega

theorem fdByteLoop_bounds (avg : Nat) : ∀ (n acc : Nat) (r : Rng),
    acc + 64 * n ≤ (fdByteLoop avg n acc r).1 ∧
      (fdByteLoop avg n acc r).1 ≤ acc + 1500 * n := by
  intro n
  induction n with
  | zero => intro acc r; simp [fdByteLoop]
  | succ m ih =>
    intro acc r
    rw [fdByteLoop]
    obtain ⟨h1, h2⟩ := ih (acc +
      (max 64 (min 1500 (toI32 avg + (randint r (-(Int.tdiv (toI32 avg) 5))
        (Int.tdiv (toI32 avg) 5)).1))).toNat)
      ((randint r (-(Int.tdiv (toI32 avg) 5)) (Int.tdiv (toI32 avg) 5)).2)
    have hcl : (64 : Int) ≤ max 64 (min 1500 (toI32 avg + (randint r
        (-(Int.tdiv (toI32 avg) 5)) (Int.tdiv (toI32 avg) 5)).1)) ∧
        max 64 (min 1500 (toI32 avg + (randint r (-(Int.tdiv (toI32 avg) 5))
          (Int.tdiv (toI32 avg) 5)).1)) ≤ 1500 := by
      omega
    omega

/-- C7: in both generate_flow_stats implementations, every per-packet size is
clamped to [64, 1500] before being summed, so the byte count of every
synthesized record lies between 64 and 1500 times its packet count. -/
theorem C7_byte_count_bounds (avg proto dport : Nat) (r : Rng) (havg : avg < U32) :
    (64 * (fs_generate_flow_stats avg proto dport r).1.packet_count ≤
        (fs_generate_flow_stats avg proto dport r).1.byte_count ∧
      (fs_generate_flow_stats avg proto dport r).1.byte_count ≤
        1500 * (fs_generate_flow_stats avg proto dport r).1.packet_count) ∧
    (64 * (fd_generate_flow_stats avg proto dport r).1.packet_count ≤
        (fd_generate_flow_stats avg proto dport r).1.byte_count ∧
      (fd_generate_flow_stats avg proto dport r).1.byte_count ≤
        1500 * (fd_generate_flow_stats avg proto dport r).1.packet_count) := by
  constructor
  · have h := fsByteLoop_bounds avg ((statsPacketCount proto dport r).1.toNat) 0
      ((statsPacketCount proto dport r).2)
    simp only [fs_generate_flow_stats]
    omega
  · have h := fdByteLoop_bounds avg ((statsPacketCount proto dport r).1.toNat) 0
      ((statsPacketCount proto dport r).2)
    simp only [fd_generate_flow_stats]
    omega

/-- Witness for C7 at avg 800, TCP port 443, the all-zero oracle. -/
theorem C7_byte_count_bounds_witness :
    800 < U32 ∧
      64 * (fs_generate_flow_stats 800 6 443 ⟨fun _ => 0, fun _ => 0, 0, 0⟩).1.packet_count ≤
        (fs_generate_flow_stats 800 6 443 ⟨fun _ => 0, fun _ => 0, 0, 0⟩).1.byte_count :=
  ⟨by decide,
    (C7_byte_count_bounds 800 6 443 ⟨fun _ => 0, fun _ => 0, 0, 0⟩ (by decide)).1.1⟩

theorem fsByteLoop_rng (avg : Nat) : ∀ (n acc : Nat) (r : Rng),
    (fsByteLoop avg n acc r).2 = { r with ipos := r.ipos + n } := by
  intro n
  induction n with
  | zero =>
    intro acc r
    rfl
  | succ m ih =>
    intro acc r
    rw [fsByteLoop, ih]
    simp only [randint]
    congr 1
    omega

theorem fdByteLoop_rng (avg : Nat) : ∀ (n acc : Nat) (r : Rng),
    (fdByteLoop avg n acc r).2 = { r with ipos := r.ipos + n } := by
  intro n
  induction n with
  | zero =>
    intro acc r
    rfl
  | succ m ih =>
    intro acc r
    rw [fdByteLoop, ih]
    simp only [randint]
    congr 1
    omega

/-- C4 counterexample: for a protocol that is neither TCP nor UDP, the
flowstats implementation draws the per-packet gap from [1, 10] ms
(randint(1000, 10000) microseconds, enhanced_flow.cpp line 196), not from
[1, 20] ms as the claim states for flow-statistics synthesis in general.
Were the gap uniform on [1, 20] ms, a record with packet_count 2 and
duration 20 ms would be attainable; no oracle attains it. -/
theorem C4_counterexample :
    ¬ ∃ r : Rng, (fs_generate_flow_stats 800 1 0 r).1.packet_count = 2 ∧
      (fs_generate_flow_stats 800 1 0 r).1.duration_ns = 20000000 := by
  rintro ⟨r, hpc, hdur⟩
  simp only [fs_generate_flow_stats, statsPacketCount, fsDuration] at hpc hdur
  norm_num at hpc hdur
  rw [hpc] at hdur
  norm_num at hdur
  have hg := randint_bounds (by norm_num : (1000 : Int) ≤ 10000)
    (fsByteLoop 800 2 0 (randint r 1 10).2).2
  set g := (randint (fsByteLoop 800 2 0 (randint r 1 10).2).2 1000 10000).1 with hgdef
  have : g.toNat ≤ 10000 := by omega
  omega

/-- C4 (amended): in both implementations, for protocols other than TCP and
UDP with more than one packet, the duration is (packet_count - 1) times a
per-packet gap; the gap is drawn uniformly from [1, 20] ms in the flowdump
implementation but from [1, 10] ms in the flowstats one.  Every value in the
respective range is attainable (shown with packet count 2). -/
theorem C4_other_protocol_duration (avg proto dport : Nat) (r : Rng)
    (hp6 : proto ≠ 6) (hp17 : proto ≠ 17) :
    (1 < (fd_generate_flow_stats avg proto dport r).1.packet_count →
      ∃ gap : Nat, 1000 ≤ gap ∧ gap ≤ 20000 ∧
        (fd_generate_flow_stats avg proto dport r).1.duration_ns =
          ((fd_generate_flow_stats avg proto dport r).1.packet_count - 1) * gap * 1000) ∧
    (1 < (fs_generate_flow_stats avg proto dport r).1.packet_count →
      ∃ gap : Nat, 1000 ≤ gap ∧ gap ≤ 10000 ∧
        (fs_generate_flow_stats avg proto dport r).1.duration_ns =
          ((fs_generate_flow_stats avg proto dport r).1.packet_count - 1) * gap * 1000) ∧
    (∀ gap : Nat, 1000 ≤ gap → gap ≤ 20000 → ∃ r0 : Rng,
      (fd_generate_flow_stats avg proto dport r0).1.packet_count = 2 ∧
      (fd_generate_flow_stats avg proto dport r0).1.duration_ns = gap * 1000) ∧
    (∀ gap : Nat, 1000 ≤ gap → gap ≤ 10000 → ∃ r0 : Rng,
      (fs_generate_flow_stats avg proto dport r0).1.packet_count = 2 ∧
      (fs_generate_flow_stats avg proto dport r0).1.duration_ns = gap * 1000) := by
  have hfd : ∀ (r2 : Rng) (pc : Nat), 1 < pc → fdDuration proto dport pc r2 =
      ((pc - 1) * (randint r2 1000 20000).1.toNat * 1000, (randint r2 1000 20000).2) := by
    intro r2 pc hpc
    unfold fdDuration
    rw [if_neg (by omega), if_neg hp6, if_neg hp17]
  have hfs : ∀ (r2 : Rng) (pc : Nat), 1 < pc → fsDuration proto dport pc r2 =
      ((pc - 1) * (randint r2 1000 10000).1.toNat * 1000, (randint r2 1000 10000).2) := by
    intro r2 pc hpc
    unfold fsDuration
    rw [if_neg (by omega), if_neg hp6, if_neg hp17]
  have hspc : ∀ r2 : Rng, statsPacketCount proto dport r2 = randint r2 1 10 := by
    intro r2
    unfold statsPacketCount
    rw [if_neg hp6, if_neg hp17]
  refine ⟨fun h1 => ?_, fun h1 => ?_, fun gap hg1 hg2 => ?_, fun gap hg1 hg2 => ?_⟩
  · simp only [fd_generate_flow_stats] at h1 ⊢
    rw [hfd _ _ h1]
    obtain ⟨hlo, hhi⟩ := randint_bounds (by norm_num : (1000 : Int) ≤ 20000)
      ((fdByteLoop avg (statsPacketCount proto dport r).1.toNat 0
        (statsPacketCount proto dport r).2).2)
    exact ⟨_, by omega, by omega, rfl⟩
  · simp only [fs_generate_flow_stats] at h1 ⊢
    rw [hfs _ _ h1]
    obtain ⟨hlo, hhi⟩ := randint_bounds (by norm_num : (1000 : Int) ≤ 10000)
      ((fsByteLoop avg (statsPacketCount proto dport r).1.toNat 0
        (statsPacketCount proto dport r).2).2)
    exact ⟨_, by omega, by omega, rfl⟩
  · refine ⟨⟨fun n => if n = 0 then 1 else if n = 3 then gap - 1000 else 0,
      fun _ => 0, 0, 0⟩, ?_⟩
    have h1 : statsPacketCount proto dport
        ⟨fun n => if n = 0 then 1 else if n = 3 then gap - 1000 else 0, fun _ => 0, 0, 0⟩ =
        ((2 : Int), ⟨fun n => if n = 0 then 1 else if n = 3 then gap - 1000 else 0,
          fun _ => 0, 1, 0⟩) := by
      rw [hspc]
      unfold randint
      norm_num
    have h2 : (fdByteLoop avg 2 0
        ⟨fun n => if n = 0 then 1 else if n = 3 then gap - 1000 else 0, fun _ => 0, 1, 0⟩).2 =
        ⟨fun n => if n = 0 then 1 else if n = 3 then gap - 1000 else 0, fun _ => 0, 3, 0⟩ := by
      rw [fdByteLoop_rng]
    have h3 : (randint ⟨fun n => if n = 0 then 1 else if n = 3 then gap - 1000 else 0,
        fun _ => 0, 3, 0⟩ 1000 20000).1 = (gap : Int) := by
      apply randint_eq _ (by norm_num) (by exact_mod_cast hg1) (by exact_mod_cast hg2)
      show ((if (3 : Nat) = 0 then 1 else if (3 : Nat) = 3 then gap - 1000 else 0 : Nat) : Int) =
        (gap : Int) - 1000
      norm_num
      omega
    simp only [fd_generate_flow_stats, h1]
    rw [show ((2 : Int)).toNat = 2 from rfl]
    rw [hfd _ 2 (by norm_num), h2, h3]
    refine ⟨rfl, ?_⟩
    omega
  · refine ⟨⟨fun n => if n = 0 then 1 else if n = 3 then gap - 1000 else 0,
      fun _ => 0, 0, 0⟩, ?_⟩
    have h1 : statsPacketCount proto dport
        ⟨fun n => if n = 0 then 1 else if n = 3 then gap - 1000 else 0, fun _ => 0, 0, 0⟩ =
        ((2 : Int), ⟨fun n => if n = 0 then 1 else if n = 3 then gap - 1000 else 0,
          fun _ => 0, 1, 0⟩) := by
      rw [hspc]
      unfold randint
      norm_num
    have h2 : (fsByteLoop avg 2 0
        ⟨fun n => if n = 0 then 1 else if n = 3 then gap - 1000 else 0, fun _ => 0, 1, 0⟩).2 =
        ⟨fun n => if n = 0 then 1 else if n = 3 then gap - 1000 else 0, fun _ => 0, 3, 0⟩ := by
      rw [fsByteLoop_rng]
    have h3 : (randint ⟨fun n => if n = 0 then 1 else if n = 3 then gap - 1000 else 0,
        fun _ => 0, 3, 0⟩ 1000 10000).1 = (gap : Int) := by
      apply randint_eq _ (by norm_num) (by exact_mod_cast hg1) (by exact_mod_cast hg2)
      show ((if (3 : Nat) = 0 then 1 else if (3 : Nat) = 3 then gap - 1000 else 0 : Nat) : Int) =
        (gap : Int) - 1000
      norm_num
      omega
    simp only [fs_generate_flow_stats, h1]
    rw [show ((2 : Int)).toNat = 2 from rfl]
    rw [hfs _ 2 (by norm_num), h2, h3]
    refine ⟨rfl, ?_⟩
    omega

/-- Witness for C4 at protocol 1 (ICMP): a 20 ms gap is attained by the
flowdump implementation with packet count 2. -/
theorem C4_other_protocol_duration_witness :
    ∃ r0 : Rng, (fd_generate_flow_stats 800 1 0 r0).1.packet_count = 2 ∧
      (fd_generate_flow_stats 800 1 0 r0).1.duration_ns = 20000 * 1000 :=
  (C4_other_protocol_duration 800 1 0 ⟨fun _ => 0, fun _ => 0, 0, 0⟩
    (by decide) (by decide)).2.2.1 20000 (by decide) (by decide)

/-! The flowdump timestamp chunker. -/

structure EnhancedFlowRecord where
  stream_id : Nat
  timestamp : Nat
  first_timestamp : Nat
  last_timestamp : Nat
  source_ip : Nat
  destination_ip : Nat
  source_port : Nat
  destination_port : Nat
  protocol : Nat
  packet_count : Nat
  byte_count : Nat
  deriving DecidableEq, Inhabited

/-- Insertion into the chunker's std::map, modelled as an association list
sorted by ascending chunk id with unique keys; operator[] creates an empty
vector for an absent key and push_back appends. -/
def mapInsert (k : Nat) (v : EnhancedFlowRecord) :
    List (Nat × List EnhancedFlowRecord) → List (Nat × List EnhancedFlowRecord)
  | [] => [(k, [v])]
  | (k2, vs) :: rest =>
    if k < k2 then (k, [v]) :: (k2, vs) :: rest
    else if k = k2 then (k2, vs ++ [v]) :: rest
    else (k2, vs) :: mapInsert k v rest

structure TimestampChunker where
  chunk_duration_ns : Nat
  chunks : List (Nat × List EnhancedFlowRecord)
  oldest_chunk_id : Nat
  has_oldest : Bool
  deriving DecidableEq, Inhabited

/-- Constructor of TimestampChunker (timestamp_chunker.cpp lines 6-10). -/
def TimestampChunker.mkNew (d : Nat) : TimestampChunker := ⟨d, [], 0, false⟩

/-- add_flow (timestamp_chunker.cpp lines 12-20): the chunk id is
timestamp / chunk_duration_ns; the record is appended to its chunk; the first
record ever inserted fixes oldest_chunk_id. -/
def TimestampChunker.add_flow (c : TimestampChunker) (f : EnhancedFlowRecord) :
    TimestampChunker :=
  let cid := f.timestamp / c.chunk_duration_ns
  { c with
    chunks := mapInsert cid f c.chunks,
    oldest_chunk_id := if c.has_oldest then c.oldest_chunk_id else cid,
    has_oldest := true }

/-- has_complete_chunk (timestamp_chunker.cpp lines 22-31): true iff some
record is buffered under a strictly larger chunk id than the oldest one
(chunks_.rbegin() is the largest key of the std::map). -/
def TimestampChunker.has_complete_chunk (c : TimestampChunker) : Bool :=
  if ¬c.has_oldest ∨ c.chunks = [] then false
  else
    match c.chunks.getLast? with
    | some (latest, _) => decide (c.oldest_chunk_id < latest)
    | none => false

/-- get_complete_chunk (timestamp_chunker.cpp lines 33-50): when a complete
chunk exists, the records at oldest_chunk_id (possibly none) are moved out,
the map entry erased, and oldest_chunk_id advanced by one. -/
def TimestampChunker.get_complete_chunk (c : TimestampChunker) :
    List EnhancedFlowRecord × TimestampChunker :=
  if c.has_complete_chunk = false then ([], c)
  else
    match c.chunks.lookup c.oldest_chunk_id with
    | none => ([], { c with oldest_chunk_id := c.oldest_chunk_id + 1 })
    | some vs =>
      (vs,
        { c with
          chunks := c.chunks.filter (fun kv => kv.1 != c.oldest_chunk_id),
          oldest_chunk_id := c.oldest_chunk_id + 1 })

/-- A record of the S5 scenario: only the timestamp field matters to the
chunker. -/
def s5rec (ts : Nat) : EnhancedFlowRecord := ⟨1, ts, ts, ts, 0, 0, 0, 0, 0, 1, 0⟩

/-- The chunker of the S5 scenario after inserting the records with the
given timestamps in order, with chunk_duration_ns = 10. -/
def s5chunker (l : List Nat) : TimestampChunker :=
  l.foldl (fun c ts => c.add_flow (s5rec ts)) (TimestampChunker.mkNew 10)

/-- C2 counterexample: in scenario S5 a complete chunk IS available once the
fourth record has been inserted (indeed already after the third, when the
first record with chunk id 1 arrives), contradicting the claim that none is
available before the fifth record. -/
theorem C2_counterexample :
    (s5chunker [0, 5, 10, 12]).has_complete_chunk = true ∧
    (s5chunker [0, 5, 10]).has_complete_chunk = true := by
  decide

/-- C2 (amended): with chunk_duration_ns = 10 and records at timestamps
0, 5, 10, 12, 25 (chunk ids 0, 0, 1, 1, 2) inserted in order, no chunk is
complete after the first two records; chunk 0 becomes complete as soon as the
third record (first of chunk 1) is inserted, and remains complete after the
fourth and fifth; draining then yields chunk 0 with exactly the two records
of timestamps 0 and 5. -/
theorem C2_chunker_scenario :
    ([0, 5, 10, 12, 25].map (fun ts => (s5rec ts).timestamp / 10) = [0, 0, 1, 1, 2]) ∧
    (s5chunker [0, 5]).has_complete_chunk = false ∧
    (s5chunker [0, 5, 10]).has_complete_chunk = true ∧
    (s5chunker [0, 5, 10, 12]).has_complete_chunk = true ∧
    (s5chunker [0, 5, 10, 12, 25]).has_complete_chunk = true ∧
    (s5chunker [0, 5, 10, 12, 25]).get_complete_chunk.1 = [s5rec 0, s5rec 5] := by
  decide

/-! The flow engine: patterns, configuration, generator. -/

inductive PatternKind where
  | random
  | web
  | dns
  | ssh
  | database
  | smtp
  | ftp
  deriving DecidableEq, Inhabited

/-- Model of ::tolower for the ASCII strings the factory receives. -/
def toLowerCh (c : Char) : Char :=
  if 65 ≤ c.toNat ∧ c.toNat ≤ 90 then Char.ofNat (c.toNat + 32) else c

/-- Embedding of flowgen::create_pattern_generator (flow_record.cpp lines
233-254): case-insensitive tag lookup with registered aliases; unknown tags
throw std::runtime_error. -/
def create_pattern_generator (s : List Char) : Except UtilErr PatternKind :=
  let t := s.map toLowerCh
  if t = "random".toList then .ok .random
  else if t = "web_traffic".toList ∨ t = "http_traffic".toList ∨ t = "https_traffic".toList then
    .ok .web
  else if t = "dns_traffic".toList then .ok .dns
  else if t = "ssh_traffic".toList then .ok .ssh
  else if t = "database_traffic".toList then .ok .database
  else if t = "smtp_traffic".toList ∨ t = "email_traffic".toList then .ok .smtp
  else if t = "ftp_traffic".toList then .ok .ftp
  else .error .unknownPattern

structure FlowRecord where
  source_ip : Nat
  destination_ip : Nat
  source_port : Nat
  destination_port : Nat
  protocol : Nat
  timestamp : Nat
  packet_length : Nat
  deriving DecidableEq, Inhabited

/-- Embedding of flowgen::utils::random_ipv4_uint32 (utils.cpp lines
111-134).  With an empty subnet four octet draws build a random address; a
non-trivial subnet is parsed (exceptions propagate), tiny subnets return
base + 1, larger ones add a host offset drawn from [1, host_count - 2]. -/
def random_ipv4_uint32 (subnet : List Char) (r : Rng) : Except UtilErr (Nat × Rng) :=
  if subnet = [] then
    let o1 := randint r 1 223
    let o2 := randint o1.2 0 255
    let o3 := randint o2.2 0 255
    let o4 := randint o3.2 1 254
    .ok ((((toU32 o1.1 <<< 24) % U32) ||| ((toU32 o2.1 <<< 16) % U32) |||
          ((toU32 o3.1 <<< 8) % U32) ||| toU32 o4.1, o4.2))
  else do
    let bh ← parse_subnet subnet
    if bh.2 ≤ 2 then .ok ((bh.1 + 1) % U32, r)
    else
      let off := randint r 1 (toI32 (bh.2 - 2))
      .ok ((bh.1 + toU32 off.1) % U32, off.2)

/-- Embedding of flowgen::utils::random_ip_from_subnets_uint32 (utils.cpp
lines 197-214): empty pool falls back to a fully random address; empty
weights pick a subnet uniformly; otherwise weighted_choice picks it. -/
def random_ip_from_subnets_uint32 (subnets : List (List Char)) (weights : List ℚ) (r : Rng) :
    Except UtilErr (Nat × Rng) :=
  match subnets with
  | [] => random_ipv4_uint32 [] r
  | x :: xs =>
    if weights = [] then
      let ir := randint r 0 (((x :: xs).length : Int) - 1)
      random_ipv4_uint32 ((x :: xs).getD ir.1.toNat x) ir.2
    else do
      let sr ← weighted_choice (x :: xs) weights r
      random_ipv4_uint32 sr.1 sr.2

/-- Embedding of the per-class generate implementations (flow_record.cpp
lines 59-230), one arm per pattern class, with the draws in the statement
order of the C++.  The 0.7 / 0.4 / 0.3 / 0.5 double literals are written as
the rationals they denote; only the support of the draws matters to the
theorems below. -/
def pattern_generate (k : PatternKind) (ts : Nat) (srcs dsts : List (List Char))
    (srcw : List ℚ) (minp maxp : Nat) (r : Rng) : Except UtilErr (FlowRecord × Rng) :=
  match k with
  | .random => do
    let s ← random_ip_from_subnets_uint32 srcs srcw r
    let d ← random_ip_from_subnets_uint32 dsts [] s.2
    let pr := uniform d.2 0 1
    let proto : Nat := if pr.1 < 7/10 then 6 else 17
    let sp := randint pr.2 49152 65535
    let dp := randint sp.2 1 65535
    let pl := randint dp.2 (minp : Int) (maxp : Int)
    .ok (⟨s.1, d.1, sp.1.toNat, dp.1.toNat, proto, ts, pl.1.toNat⟩, pl.2)
  | .web => do
    let s ← random_ip_from_subnets_uint32 srcs srcw r
    let d ← random_ip_from_subnets_uint32 dsts [] s.2
    let pr := uniform d.2 0 1
    let dp : Nat := if pr.1 < 7/10 then 443 else 80
    let sp := randint pr.2 49152 65535
    let br := uniform sp.2 0 1
    let pl := if br.1 < 2/5 then randint br.2 64 200 else randint br.2 500 (maxp : Int)
    .ok (⟨s.1, d.1, sp.1.toNat, dp, 6, ts, pl.1.toNat⟩, pl.2)
  | .dns => do
    let s ← random_ip_from_subnets_uint32 srcs srcw r
    let d ← random_ip_from_subnets_uint32 dsts [] s.2
    let sp := randint d.2 49152 65535
    let pl := randint sp.2 64 512
    .ok (⟨s.1, d.1, sp.1.toNat, 53, 17, ts, pl.1.toNat⟩, pl.2)
  | .ssh => do
    let s ← random_ip_from_subnets_uint32 srcs srcw r
    let d ← random_ip_from_subnets_uint32 dsts [] s.2
    let sp := randint d.2 49152 65535
    let pl := randint sp.2 100 400
    .ok (⟨s.1, d.1, sp.1.toNat, 22, 6, ts, pl.1.toNat⟩, pl.2)
  | .database => do
    let s ← random_ip_from_subnets_uint32 srcs srcw r
    let d ← random_ip_from_subnets_uint32 dsts [] s.2
    let ir := randint d.2 0 3
    let dp : Nat := [3306, 5432, 27017, 6379].getD ir.1.toNat 3306
    let sp := randint ir.2 49152 65535
    let br := uniform sp.2 0 1
    let pl := if br.1 < 3/10 then randint br.2 64 300 else randint br.2 500 (maxp : Int)
    .ok (⟨s.1, d.1, sp.1.toNat, dp, 6, ts, pl.1.toNat⟩, pl.2)
  | .smtp => do
    let s ← random_ip_from_subnets_uint32 srcs srcw r
    let d ← random_ip_from_subnets_uint32 dsts [] s.2
    let ir := randint d.2 0 2
    let dp : Nat := [25, 587, 465].getD ir.1.toNat 25
    let sp := randint ir.2 49152 65535
    let pl := randint sp.2 200 (maxp : Int)
    .ok (⟨s.1, d.1, sp.1.toNat, dp, 6, ts, pl.1.toNat⟩, pl.2)
  | .ftp => do
    let s ← random_ip_from_subnets_uint32 srcs srcw r
    let d ← random_ip_from_subnets_uint32 dsts [] s.2
    let pr := uniform d.2 0 1
    let dp : Nat := if pr.1 < 1/2 then 20 else 21
    let sp := randint pr.2 49152 65535
    let pl := if dp = 20 then randint sp.2 1000 (maxp : Int) else randint sp.2 64 500
    .ok (⟨s.1, d.1, sp.1.toNat, dp, 6, ts, pl.1.toNat⟩, pl.2)

structure TrafficPatternConfig where
  ptype : List Char
  percentage : ℚ
  deriving DecidableEq, Inhabited

structure GeneratorConfig where
  bandwidth_gbps : ℚ
  flows_per_second : ℚ
  max_flows : Nat
  duration_seconds : ℚ
  start_timestamp_ns : Nat
  source_subnets : List (List Char)
  destination_subnets : List (List Char)
  source_weights : List ℚ
  min_packet_size : Nat
  max_packet_size : Nat
  average_packet_size : Nat
  bidirectional_mode : List Char
  bidirectional_probability : ℚ
  traffic_patterns : List TrafficPatternConfig
  deriving DecidableEq, Inhabited

/-- Embedding of GeneratorConfig::validate (generator.cpp lines 10-89), as
the Bool it returns (the error strings are dropped). -/
def GeneratorConfig.validate (c : GeneratorConfig) : Bool :=
  if c.bandwidth_gbps ≤ 0 ∧ c.flows_per_second ≤ 0 then false
  else if c.max_flows = 0 ∧ c.duration_seconds ≤ 0 then false
  else if c.traffic_patterns = [] then false
  else if 1/100 <
      |(c.traffic_patterns.foldl (fun acc p => acc + p.percentage) 0) - 100| then false
  else if c.source_subnets = [] then false
  else if c.destination_subnets = [] then false
  else if c.source_weights ≠ [] ∧ c.source_weights.length ≠ c.source_subnets.length then false
  else if c.source_weights ≠ [] ∧
      1/100 < |(c.source_weights.foldl (fun acc w => acc + w) 0) - 100| then false
  else if c.max_packet_size < c.min_packet_size then false
  else if c.bidirectional_mode ≠ "none".toList ∧ c.bidirectional_mode ≠ "random".toList then
    false
  else if c.bidirectional_probability < 0 ∨ 1 < c.bidirectional_probability then false
  else true

/-- Embedding of flowgen::utils::calculate_flows_per_second (utils.cpp lines
248-252) over exact rationals. -/
def calculate_flows_per_second (bandwidth_gbps : ℚ) (avg_packet_size : Nat) : ℚ :=
  bandwidth_gbps * 1000000000 / 8 / avg_packet_size

structure FlowGenerator where
  initialized : Bool
  config : GeneratorConfig
  flows_per_second : ℚ
  inter_arrival_time_ns : Nat
  start_timestamp_ns : Nat
  current_timestamp_ns : Nat
  flow_count : Nat
  pattern_generators : List PatternKind
  pattern_weights : List ℚ
  deriving DecidableEq, Inhabited

/-- Embedding of FlowGenerator::initialize (generator.cpp lines 103-152).
The result is .ok none when validate fails (the C++ returns false), .error
when pattern construction throws, .ok (some g) on the true path.  The
system-clock fallback for a zero start timestamp is passed in as nowNs.  The
static_cast of the positive inter-arrival seconds times 1e9 to uint64_t
truncates, hence the floor. -/
def FlowGenerator.init (config : GeneratorConfig) (nowNs : Nat) :
    Except UtilErr (Option FlowGenerator) :=
  if config.validate = false then .ok none
  else
    let fps := if 0 < config.bandwidth_gbps then
        calculate_flows_per_second config.bandwidth_gbps config.average_packet_size
      else config.flows_per_second
    let interNs : Nat := (Int.floor ((1 / fps) * 1000000000)).toNat
    let startNs := if 0 < config.start_timestamp_ns then config.start_timestamp_ns else nowNs
    match config.traffic_patterns.mapM (fun pc => create_pattern_generator pc.ptype) with
    | .error e => .error e
    | .ok gens =>
      .ok (some
        { initialized := true
          config := config
          flows_per_second := fps
          inter_arrival_time_ns := interNs
          start_timestamp_ns := startNs
          current_timestamp_ns := startNs
          flow_count := 0
          pattern_generators := gens
          pattern_weights := config.traffic_patterns.map (fun pc => pc.percentage) })

/-- Embedding of FlowGenerator::should_stop (generator.cpp lines 220-235). -/
def FlowGenerator.should_stop (g : FlowGenerator) : Bool :=
  if 0 < g.config.max_flows ∧ g.config.max_flows ≤ g.flow_count then true
  else if 0 < g.config.duration_seconds ∧ g.config.duration_seconds ≤
      ((g.current_timestamp_ns - g.start_timestamp_ns : Nat) : ℚ) / 1000000000 then true
  else false

/-- The cumulative-percentage scan of FlowGenerator::select_pattern
(generator.cpp lines 247-253); idx stays 0 when the loop never breaks. -/
def selLoop (pats : List PatternKind) (ws : List ℚ) (rv cum : ℚ)
    (dflt : PatternKind) : PatternKind :=
  match pats, ws with
  | p :: ps, w :: rest => if rv ≤ cum + w then p else selLoop ps rest rv (cum + w) dflt
  | _, _ => dflt

/-- Embedding of FlowGenerator::select_pattern (generator.cpp lines
237-256). -/
def FlowGenerator.select_pattern (g : FlowGenerator) (r : Rng) : Option PatternKind × Rng :=
  match g.pattern_generators with
  | [] => (none, r)
  | p :: ps =>
    let ur := uniform r 0 100
    (some (selLoop (p :: ps) g.pattern_weights ur.1 0 p), ur.2)

/-- The state update at the end of a successful next (generator.cpp lines
189-191): the flow counter increments and the timestamp advances by the
inter-arrival quantum in uint64_t arithmetic. -/
def FlowGenerator.advance (g : FlowGenerator) : FlowGenerator :=
  { g with
    flow_count := g.flow_count + 1
    current_timestamp_ns := (g.current_timestamp_ns + g.inter_arrival_time_ns) % U64 }

/-- Embedding of FlowGenerator::next (generator.cpp lines 154-194): next
declines (returns false, modelled .ok none) when the engine is uninitialized,
when should_stop holds, or when no pattern exists; otherwise it generates a
record from the selected pattern, optionally swaps direction, and advances
the engine state. -/
def FlowGenerator.next (g : FlowGenerator) (r : Rng) :
    Except UtilErr (Option (FlowRecord × FlowGenerator)) × Rng :=
  if g.initialized = false then (.ok none, r)
  else if g.should_stop = true then (.ok none, r)
  else
    match g.select_pattern r with
    | (none, r1) => (.ok none, r1)
    | (some k, r1) =>
      match pattern_generate k g.current_timestamp_ns g.config.source_subnets
          g.config.destination_subnets g.config.source_weights g.config.min_packet_size
          g.config.max_packet_size r1 with
      | .error e => (.error e, r1)
      | .ok fr =>
        let fr3 : FlowRecord × Rng :=
          if g.config.bidirectional_mode = "random".toList then
            let ur := uniform fr.2 0 1
            (if ur.1 < g.config.bidirectional_probability then
              { fr.1 with
                source_ip := fr.1.destination_ip
                destination_ip := fr.1.source_ip
                source_port := fr.1.destination_port
                destination_port := fr.1.source_port }
            else fr.1, ur.2)
          else (fr.1, fr.2)
        (.ok (some (fr3.1, g.advance)), fr3.2)

/-! Success lemmas: under a well-formed configuration the generation path
never throws, and the emitted record carries the engine's current
timestamp. -/

/-- A subnet string is safe for the random-address path when it is empty
(fallback draw) or parses. -/
def SubnetOk (s : List Char) : Bool :=
  s.isEmpty ||
    (match parse_subnet s with
     | .ok _ => true
     | .error _ => false)

theorem random_ipv4_ok {s : List Char} (hs : SubnetOk s = true) (r : Rng) :
    ∃ v r2, random_ipv4_uint32 s r = .ok (v, r2) := by
  by_cases he : s = []
  · subst he
    simp only [random_ipv4_uint32, if_pos rfl]
    exact ⟨_, _, rfl⟩
  · cases hpp : parse_subnet s with
    | error e =>
      exfalso
      unfold SubnetOk at hs
      rw [hpp] at hs
      simp [List.isEmpty_eq_true, he] at hs
    | ok bh =>
      simp only [random_ipv4_uint32, if_neg he, hpp, bind, Except.bind]
      split
      · exact ⟨_, _, rfl⟩
      · exact ⟨_, _, rfl⟩

theorem getD_mem_cons {α : Type} (x : α) (xs : List α) (n : Nat) :
    (x :: xs).getD n x ∈ x :: xs := by
  rcases Nat.lt_or_ge n (x :: xs).length with h | h
  · rw [List.getD_eq_getElem?_getD, List.getElem?_eq_getElem h, Option.getD_some]
    exact List.getElem_mem h
  · rw [List.getD_eq_getElem?_getD, List.getElem?_eq_none (by omega), Option.getD_none]
    exact List.mem_cons_self x xs

theorem wcLoop_mem {α : Type} (fb : α) (rv : ℚ) : ∀ (pats : List α) (ws : List ℚ) (cum : ℚ),
    wcLoop fb rv pats ws cum = fb ∨ wcLoop fb rv pats ws cum ∈ pats := by
  intro pats
  induction pats with
  | nil => intro ws cum; left; rfl
  | cons p ps ih =>
    intro ws cum
    cases ws with
    | nil => left; rfl
    | cons w rest =>
      unfold wcLoop
      split
      · right
        exact List.mem_cons_self p ps
      · rcases ih rest (cum + w) with h | h
        · left
          exact h
        · right
          exact List.mem_cons_of_mem p h

theorem weighted_choice_ok {α : Type} (x : α) (xs : List α) (weights : List ℚ) (r : Rng)
    (hlen : weights = [] ∨ weights.length = (x :: xs).length) :
    ∃ a r2, weighted_choice (x :: xs) weights r = .ok (a, r2) ∧ a ∈ x :: xs := by
  rcases hlen with rfl | hlen
  · rw [weighted_choice_cons, if_neg (by simp), if_pos rfl]
    exact ⟨_, _, rfl, getD_mem_cons x xs _⟩
  · have hwne : weights ≠ [] := by
      intro he
      subst he
      simp at hlen
    rw [weighted_choice_cons, if_neg (fun hc => hc.2 hlen), if_neg hwne]
    refine ⟨_, _, rfl, ?_⟩
    rcases wcLoop_mem ((x :: xs).getLast (List.cons_ne_nil x xs))
        (uniform r 0 (weights.foldl (fun acc w => acc + w) 0)).1 (x :: xs) weights 0 with h | h
    · rw [h]
      exact List.getLast_mem (List.cons_ne_nil x xs)
    · exact h

theorem random_ip_ok (subnets : List (List Char)) (weights : List ℚ) (r : Rng)
    (hs : ∀ s ∈ subnets, SubnetOk s = true)
    (hw : weights = [] ∨ weights.length = subnets.length) :
    ∃ v r2, random_ip_from_subnets_uint32 subnets weights r = .ok (v, r2) := by
  cases subnets with
  | nil =>
    have h0 : SubnetOk ([] : List Char) = true := rfl
    exact random_ipv4_ok h0 r
  | cons x xs =>
    rcases hw with rfl | hlen
    · simp only [random_ip_from_subnets_uint32, if_pos rfl]
      exact random_ipv4_ok (hs _ (getD_mem_cons x xs _)) _
    · have hwne : weights ≠ [] := by
        intro he
        subst he
        simp at hlen
      obtain ⟨a, r2, heq, hmem⟩ := weighted_choice_ok x xs weights r (Or.inr hlen)
      simp only [random_ip_from_subnets_uint32, if_neg hwne, heq, bind, Except.bind]
      exact random_ipv4_ok (hs a hmem) r2

theorem pattern_generate_ok (k : PatternKind) (ts : Nat) (srcs dsts : List (List Char))
    (srcw : List ℚ) (minp maxp : Nat) (r : Rng)
    (hsrc : ∀ s ∈ srcs, SubnetOk s = true) (hdst : ∀ s ∈ dsts, SubnetOk s = true)
    (hw : srcw = [] ∨ srcw.length = srcs.length) :
    ∃ f r2, pattern_generate k ts srcs dsts srcw minp maxp r = .ok (f, r2) ∧
      f.timestamp = ts := by
  obtain ⟨v1, r2, h1⟩ := random_ip_ok srcs srcw r hsrc hw
  obtain ⟨v2, r3, h2⟩ := random_ip_ok dsts [] r2 hdst (Or.inl rfl)
  cases k <;>
    · simp only [pattern_generate, h1, h2, bind, Except.bind]
      exact ⟨_, _, rfl, rfl⟩

theorem next_emits (g : FlowGenerator) (r : Rng) (hinit : g.initialized = true)
    (hstop : g.should_stop = false) (hpat : g.pattern_generators ≠ [])
    (hsrc : ∀ s ∈ g.config.source_subnets, SubnetOk s = true)
    (hdst : ∀ s ∈ g.config.destination_subnets, SubnetOk s = true)
    (hw : g.config.source_weights = [] ∨
      g.config.source_weights.length = g.config.source_subnets.length) :
    ∃ f r2, g.next r = (.ok (some (f, g.advance)), r2) ∧
      f.timestamp = g.current_timestamp_ns := by
  obtain ⟨p, ps, hp⟩ := List.exists_cons_of_ne_nil hpat
  have hsel : g.select_pattern r =
      (some (selLoop (p :: ps) g.pattern_weights (uniform r 0 100).1 0 p),
        (uniform r 0 100).2) := by
    unfold FlowGenerator.select_pattern
    rw [hp]
  obtain ⟨f, r4, hgen, hts⟩ := pattern_generate_ok
    (selLoop (p :: ps) g.pattern_weights (uniform r 0 100).1 0 p) g.current_timestamp_ns
    g.config.source_subnets g.config.destination_subnets g.config.source_weights
    g.config.min_packet_size g.config.max_packet_size (uniform r 0 100).2 hsrc hdst hw
  simp only [FlowGenerator.next, hinit, hstop, hsel, hgen]
  norm_num
  split
  · split
    · exact hts
    · exact hts
  · exact hts

/-! Concrete engine scenarios for the claims about next, packet envelopes and
rate arithmetic. -/

/-- The all-zero random oracle. -/
def rng0 : Rng := ⟨fun _ => 0, fun _ => 0, 0, 0⟩

/-- A configuration that validate accepts: 10 Gbps, average packet 800, one
random pattern, a single flow allowed. -/
def cfg1 : GeneratorConfig :=
  { bandwidth_gbps := 10
    flows_per_second := 0
    max_flows := 1
    duration_seconds := 0
    start_timestamp_ns := 1704067200000000000
    source_subnets := ["10.0.0.0/8".toList]
    destination_subnets := ["192.168.0.0/16".toList]
    source_weights := []
    min_packet_size := 64
    max_packet_size := 1500
    average_packet_size := 800
    bidirectional_mode := "none".toList
    bidirectional_probability := 0
    traffic_patterns := [⟨"random".toList, 100⟩] }

def c1g0 : FlowGenerator :=
  match FlowGenerator.init cfg1 0 with
  | .ok (some g) => g
  | _ => default

def c1step : Except UtilErr (Option (FlowRecord × FlowGenerator)) × Rng := c1g0.next rng0

def c1f : FlowRecord :=
  match c1step.1 with
  | .ok (some fg) => fg.1
  | _ => default

unseal Rat.add Rat.mul Rat.sub Rat.inv in
/-- C1 counterexample: an engine whose initialization returned true (config
cfg1, max_flows = 1) emits one record and then DECLINES: the second call to
next returns false because should_stop trips inside next.  Ceasing is
decided by the engine, not only by the caller. -/
theorem C1_counterexample :
    FlowGenerator.init cfg1 0 = .ok (some c1g0) ∧
    c1step.1 = .ok (some (c1f, c1g0.advance)) ∧
    ((c1g0.advance).next c1step.2).1 = .ok none := by
  refine ⟨by decide, by decide, by decide⟩

/-- C1 (amended): for every engine whose initialization has returned true
and whose configuration has well-formed subnets and weights, next emits one
record exactly when the engine-internal stop predicate (flow count reached
max_flows, or elapsed generated time reached duration_seconds) is false; once
that predicate holds, next itself declines to emit.  Stopping is enforced by
the engine, not left entirely to the caller. -/
theorem C1_next_iff_not_stopped (g : FlowGenerator) (r : Rng)
    (hinit : g.initialized = true) (hpat : g.pattern_generators ≠ [])
    (hsrc : ∀ s ∈ g.config.source_subnets, SubnetOk s = true)
    (hdst : ∀ s ∈ g.config.destination_subnets, SubnetOk s = true)
    (hw : g.config.source_weights = [] ∨
      g.config.source_weights.length = g.config.source_subnets.length) :
    (g.should_stop = true → (g.next r).1 = .ok none) ∧
    (g.should_stop = false →
      ∃ f r2, g.next r = (.ok (some (f, g.advance)), r2) ∧
        f.timestamp = g.current_timestamp_ns) := by
  constructor
  · intro hstop
    simp only [FlowGenerator.next, hinit, hstop]
    norm_num
  · intro hstop
    exact next_emits g r hinit hstop hpat hsrc hdst hw

unseal Rat.add Rat.mul Rat.sub Rat.inv in
/-- Witness for C1 (amended): at the concrete engine states of cfg1, a fresh
engine emits and the engine after one emission declines. -/
theorem C1_next_iff_not_stopped_witness :
    ((c1g0.advance).next rng0).1 = .ok none ∧
    (∃ f r2, c1g0.next rng0 = (.ok (some (f, c1g0.advance)), r2) ∧
      f.timestamp = c1g0.current_timestamp_ns) :=
  ⟨(C1_next_iff_not_stopped (c1g0.advance) rng0 (by decide) (by decide) (by decide)
      (by decide) (by decide)).1 (by decide),
   (C1_next_iff_not_stopped c1g0 rng0 (by decide) (by decide) (by decide)
      (by decide) (by decide)).2 (by decide)⟩

/-- A validate-accepted configuration with a dns-only mix and a packet
envelope of [600, 1200]. -/
def cfg3 : GeneratorConfig :=
  { cfg1 with
    traffic_patterns := [⟨"dns_traffic".toList, 100⟩]
    min_packet_size := 600
    max_packet_size := 1200
    max_flows := 10 }

def c3g0 : FlowGenerator :=
  match FlowGenerator.init cfg3 0 with
  | .ok (some g) => g
  | _ => default

def c3step : Except UtilErr (Option (FlowRecord × FlowGenerator)) × Rng := c3g0.next rng0

def c3f : FlowRecord :=
  match c3step.1 with
  | .ok (some fg) => fg.1
  | _ => default

unseal Rat.add Rat.mul Rat.sub Rat.inv in
/-- C3 counterexample: an engine whose configuration (dns mix, envelope
[600, 1200]) is accepted at initialization emits a record with packet_length
64, below min_packet_size: the dns class draws its size from [64, 512] and
ignores the configured envelope. -/
theorem C3_counterexample :
    FlowGenerator.init cfg3 0 = .ok (some c3g0) ∧
    c3step.1 = .ok (some (c3f, c3g0.advance)) ∧
    c3f.packet_length < cfg3.min_packet_size := by
  refine ⟨by decide, by decide, by decide⟩

/-- C3 (amended): the packet envelope invariant holds for the random pattern
class: whenever min_packet_size ≤ max_packet_size, every record it generates
satisfies min_packet_size ≤ packet_length ≤ max_packet_size.  Fixed-range
classes draw from class-specific ranges instead and need not respect the
envelope: every dns record has packet_length in [64, 512] regardless of the
configuration. -/
theorem C3_packet_length_policy (ts : Nat) (srcs dsts : List (List Char)) (srcw : List ℚ)
    (minp maxp : Nat) (r : Rng) (hmm : minp ≤ maxp) :
    (∀ f r2, pattern_generate .random ts srcs dsts srcw minp maxp r = .ok (f, r2) →
      minp ≤ f.packet_length ∧ f.packet_length ≤ maxp) ∧
    (∀ f r2, pattern_generate .dns ts srcs dsts srcw minp maxp r = .ok (f, r2) →
      64 ≤ f.packet_length ∧ f.packet_length ≤ 512) := by
  constructor
  · intro f r2 h
    simp only [pattern_generate] at h
    cases h1 : random_ip_from_subnets_uint32 srcs srcw r with
    | error e =>
      rw [h1] at h
      simp [bind, Except.bind] at h
    | ok s =>
      rw [h1] at h
      simp only [bind, Except.bind] at h
      cases h2 : random_ip_from_subnets_uint32 dsts [] s.2 with
      | error e =>
        rw [h2] at h
        simp [Except.bind] at h
      | ok d =>
        rw [h2] at h
        simp only [Except.ok.injEq, Prod.mk.injEq] at h
        obtain ⟨hf, hr⟩ := h
        subst hf
        obtain ⟨hlo, hhi⟩ := randint_bounds
          (by exact_mod_cast hmm : ((minp : Nat) : Int) ≤ ((maxp : Nat) : Int))
          (randint (randint (uniform d.2 0 1).2 49152 65535).2 1 65535).2
        constructor
        · simp only []
          omega
        · simp only []
          omega
  · intro f r2 h
    simp only [pattern_generate] at h
    cases h1 : random_ip_from_subnets_uint32 srcs srcw r with
    | error e =>
      rw [h1] at h
      simp [bind, Except.bind] at h
    | ok s =>
      rw [h1] at h
      simp only [bind, Except.bind] at h
      cases h2 : random_ip_from_subnets_uint32 dsts [] s.2 with
      | error e =>
        rw [h2] at h
        simp [Except.bind] at h
      | ok d =>
        rw [h2] at h
        simp only [Except.ok.injEq, Prod.mk.injEq] at h
        obtain ⟨hf, hr⟩ := h
        subst hf
        obtain ⟨hlo, hhi⟩ := randint_bounds
          (by norm_num : (64 : Int) ≤ 512) (randint d.2 49152 65535).2
        constructor
        · simp only []
          omega
        · simp only []
          omega

def c3d : Except UtilErr (FlowRecord × Rng) :=
  pattern_generate .dns 0 ["10.0.0.0/8".toList] ["192.168.0.0/16".toList] [] 600 1200 rng0

def c3df : FlowRecord :=
  match c3d with
  | .ok fr => fr.1
  | _ => default

def c3dr : Rng :=
  match c3d with
  | .ok fr => fr.2
  | _ => rng0

unseal Rat.add Rat.mul Rat.sub Rat.inv in
/-- Witness for C3 (amended) at the dns clause on a concrete generate
call. -/
theorem C3_packet_length_policy_witness :
    600 ≤ 1200 ∧ 64 ≤ c3df.packet_length ∧ c3df.packet_length ≤ 512 :=
  ⟨by decide,
    (C3_packet_length_policy 0 ["10.0.0.0/8".toList] ["192.168.0.0/16".toList] []
      600 1200 rng0 (by decide)).2 c3df c3dr rfl⟩

/-- The S1 configuration: like cfg1 but allowing five flows. -/
def cfg6 : GeneratorConfig := { cfg1 with max_flows := 5 }

def g6n0 : FlowGenerator :=
  match FlowGenerator.init cfg6 0 with
  | .ok (some g) => g
  | _ => default

def g6n1 : FlowGenerator := g6n0.advance

def g6n2 : FlowGenerator := g6n1.advance

def g6n3 : FlowGenerator := g6n2.advance

unseal Rat.add Rat.mul Rat.sub Rat.inv in
/-- C6: scenario S1.  With bandwidth_gbps = 10 and average_packet_size =
800, initialization computes flows_per_second = 1562500 and the inter-arrival
quantum 640 ns, and for every random oracle the first three records of an
engine started at 1704067200000000000 ns carry the timestamps
1704067200000000000, 1704067200000000640, 1704067200000001280.  (Over exact
rationals; the IEEE-754 double computation of the source produces exactly
1562500.0 and 640.0 at these inputs, so the integer results agree.) -/
theorem C6_rate_arithmetic :
    FlowGenerator.init cfg6 0 = .ok (some g6n0) ∧
    g6n0.flows_per_second = 1562500 ∧
    g6n0.inter_arrival_time_ns = 640 ∧
    ∀ r : Rng, ∃ f1 r1 f2 r2 f3 r3,
      g6n0.next r = (.ok (some (f1, g6n1)), r1) ∧ f1.timestamp = 1704067200000000000 ∧
      g6n1.next r1 = (.ok (some (f2, g6n2)), r2) ∧ f2.timestamp = 1704067200000000640 ∧
      g6n2.next r2 = (.ok (some (f3, g6n3)), r3) ∧ f3.timestamp = 1704067200000001280 := by
  refine ⟨by decide, by decide, by decide, fun r => ?_⟩
  obtain ⟨f1, r1, h1, ht1⟩ := next_emits g6n0 r (by decide) (by decide) (by decide)
    (by decide) (by decide) (by decide)
  obtain ⟨f2, r2, h2, ht2⟩ := next_emits g6n1 r1 (by decide) (by decide) (by decide)
    (by decide) (by decide) (by decide)
  obtain ⟨f3, r3, h3, ht3⟩ := next_emits g6n2 r2 (by decide) (by decide) (by decide)
    (by decide) (by decide) (by decide)
  exact ⟨f1, r1, f2, r2, f3, r3, h1, ht1.trans (by decide), h2, ht2.trans (by decide),
    h3, ht3.trans (by decide)⟩

end FlowGen
